import Mathlib

/-!
# Verification of the JSON-to-CSV batch converter (`src/main.py`)

This file gives a shallow embedding of `main.py` and proves/refutes the
frozen claims about it.

Modelling conventions:
* A Python/JSON value is the tagged variant `Json` below (objects keep
  insertion order like Python dicts; arrays keep element order).
* A Python exception is modelled by `Option`/a failure flag: a function
  that can raise returns `none` (or carries an `ok : Bool`) instead of
  raising `AttributeError` etc.
* A Python dict is an insertion-ordered association list; `dictInsert`
  models `d[k] = v` (update in place if the key exists, append otherwise)
  and `toDict` models the `dict(items)` constructor (later pairs win).
* A CSV file is a list of lines; a written row is kept as the list of
  `(fieldname, value)` pairs in the order `csv.DictWriter` emits the
  cells (the physical line is the string rendering of the values, which
  no claim inspects).
-/

namespace JsonToCsv

/-- A JSON scalar: string, integer number, boolean, or null.
(The repository's documents only ever use these leaf shapes.) -/
inductive Scalar where
  | s (v : String)
  | i (v : Int)
  | b (v : Bool)
  | null
deriving DecidableEq, Repr

mutual
/-- A Python/JSON value as `json.load` produces it: a dict (insertion
ordered fields), a list, or a scalar. -/
inductive Json where
  | obj : JFields → Json
  | arr : JElems → Json
  | scalar : Scalar → Json

/-- The fields of a JSON object, in insertion order. -/
inductive JFields where
  | nil : JFields
  | cons : String → Json → JFields → JFields

/-- The elements of a JSON array, in order. -/
inductive JElems where
  | nil : JElems
  | cons : Json → JElems → JElems
end

/-- A flattened record: what the Python code keeps as a dict from
path-string to value (values are `Json` because the router can put a
non-scalar array element into a single-field record). -/
abbrev Rec := List (String × Json)

/-- Model of Python `d[k] = v` on a dict represented as an ordered
association list (keys of a Python dict occur at most once): if `k` is
already bound its binding is updated in place, otherwise `(k, v)` is
appended at the end. -/
def dictInsert {β : Type} : List (String × β) → String → β → List (String × β)
  | [], k, v => [(k, v)]
  | (a, b) :: t, k, v =>
    if a = k then (a, v) :: t else (a, b) :: dictInsert t k v

/-- Model of Python `dict(items)`: fold the pairs left to right,
later pairs overwriting earlier ones (key keeps its first position). -/
def toDict (items : Rec) : Rec :=
  items.foldl (fun acc p => dictInsert acc p.1 p.2) []

mutual
/-- `flatten_json(json_object, parent_key, separator)` from `main.py`.
`json_object.items()` raises (`none`) unless the argument is a dict;
on a dict the field loop runs and the result is `dict(items)`. -/
def flatten_json : Json → String → String → Option Rec
  | Json.obj fs, parentKey, sep =>
    match flattenFields fs parentKey sep with
    | some items => some (toDict items)
    | none => none
  | Json.arr _, _, _ => none
  | Json.scalar _, _, _ => none

/-- The `for k, v in json_object.items()` loop body of `flatten_json`,
accumulating the `items` list. -/
def flattenFields : JFields → String → String → Option Rec
  | JFields.nil, _, _ => some []
  | JFields.cons k v rest, parentKey, sep =>
    let newKey := if parentKey = "" then k else parentKey ++ sep ++ k
    let headItems : Option Rec :=
      match v with
      | Json.obj fs =>
        -- `items.extend(flatten_json(v, new_key, separator).items())`
        match flattenFields fs newKey sep with
        | some items => some (toDict items)
        | none => none
      | Json.arr es => flattenElems es newKey sep 0
      | Json.scalar sc => some [(newKey, Json.scalar sc)]
    match headItems, flattenFields rest parentKey sep with
    | some h, some t => some (h ++ t)
    | _, _ => none

/-- The `for i, item in enumerate(v)` loop of `flatten_json`: each
element is passed back to `flatten_json` with `[i]` appended to the
key, so a non-dict element raises (`none`). -/
def flattenElems : JElems → String → String → Nat → Option Rec
  | JElems.nil, _, _, _ => some []
  | JElems.cons item rest, newKey, sep, i =>
    match flatten_json item (newKey ++ "[" ++ toString i ++ "]") sep,
          flattenElems rest newKey sep (i + 1) with
    | some h, some t => some (h ++ t)
    | _, _ => none
end

deriving instance DecidableEq for Json

/-- Shorthand for a JSON string value. -/
def jstr (v : String) : Json := Json.scalar (Scalar.s v)

/-- Shorthand for a JSON integer value. -/
def jint (v : Int) : Json := Json.scalar (Scalar.i v)

/-- Build object fields from a list (insertion order preserved). -/
def JFields.ofList : List (String × Json) → JFields
  | [] => JFields.nil
  | (k, v) :: rest => JFields.cons k v (JFields.ofList rest)

/-- Build array elements from a list. -/
def JElems.ofList : List Json → JElems
  | [] => JElems.nil
  | v :: rest => JElems.cons v (JElems.ofList rest)

/-- Shorthand for a JSON object literal. -/
def jobj (l : List (String × Json)) : Json := Json.obj (JFields.ofList l)

/-- Shorthand for a JSON array literal. -/
def jarr (l : List Json) : Json := Json.arr (JElems.ofList l)

/-- The fields of an object as a list of pairs (Python `dict.items()`). -/
def JFields.toList : JFields → List (String × Json)
  | JFields.nil => []
  | JFields.cons k v rest => (k, v) :: rest.toList

/-- Python `dict.get(key)` on an object's fields (keys of a Python dict
are unique, so first match is the binding). -/
def fieldsLookup : JFields → String → Option Json
  | JFields.nil, _ => none
  | JFields.cons k v rest, key => if k = key then some v else fieldsLookup rest key

/-! ## Strings in code-point lexicographic order

Python's `sorted` on `str` compares by code points. Lean's built-in
`String` order does not reduce in the kernel, so we model the comparison
directly on the character lists. -/

/-- Strict lexicographic comparison of char lists by code point:
the model of Python's `str` `<`. -/
def strLtList : List Char → List Char → Bool
  | [], [] => false
  | [], _ :: _ => true
  | _ :: _, [] => false
  | a :: as, b :: bs =>
    if a.toNat < b.toNat then true
    else if b.toNat < a.toNat then false
    else strLtList as bs

/-- `a ≤ b` in Python's string order (total order, so `¬ b < a`). -/
def strLe (a b : String) : Prop := strLtList b.data a.data = false

instance : DecidableRel strLe := fun a b => by unfold strLe; infer_instance

/-- `sorted(...)` on a list of strings: the model of Python `sorted`. -/
def sortedStrings (l : List String) : List String := List.insertionSort strLe l

/-! ## The CSV model -/

/-- One line of a CSV file: either the header (the fieldnames, in the
order written) or a data row.  A row keeps the `(fieldname, value)`
pairs in the order `csv.DictWriter.writerow` emits the cells; the
physical text line is the string rendering of the second components. -/
inductive CsvLine where
  | header (cols : List String)
  | row (cells : List (String × Json))
deriving DecidableEq

/-- A CSV file's content, line by line. -/
abbrev CsvFile := List CsvLine

/-- A directory of CSV files: filename ↦ content.  A file exists iff it
has an entry. -/
abbrev Store := List (String × CsvFile)

/-- The empty-string cell `csv.DictWriter` writes for a missing field
(`restval=''`). -/
def emptyCell : Json := Json.scalar (Scalar.s "")

/-- The cells `csv.DictWriter.writerow(data)` emits: one per fieldname,
in fieldname order, each the value bound in `data` (or the empty cell). -/
def rowCells (fieldnames : List String) (data : Rec) : List (String × Json) :=
  fieldnames.map (fun f => (f, (data.lookup f).getD emptyCell))

/-- The `set(...)` of a list of strings, as a duplicate-free list (the
set's iteration order is irrelevant here because every use sorts it). -/
def dedupKeys : List String → List String
  | [] => []
  | x :: xs => if x ∈ xs then dedupKeys xs else x :: dedupKeys xs

/-- The column set of one `append_flattened_to_csv` call, sorted:
`sorted(set(data.keys()) ∪ {"numeroControl", "processID"})`. -/
def rowKeys (data : Rec) : List String :=
  sortedStrings (dedupKeys (data.map Prod.fst ++ ["numeroControl", "processID"]))

/-- `append_flattened_to_csv(data, filename, numero_control)` from
`main.py`, with the file system passed explicitly as `store` and the
global `process_id` as a parameter.  Returns the updated store and the
(mutated!) `data` dict: the source assigns `data["numeroControl"]` and
`data["processID"]` before `writerow`. -/
def append_flattened_to_csv (store : Store) (data : Rec) (filename : String)
    (numero_control : Json) (process_id : String) : Store × Rec :=
  let file_exists := (store.lookup filename).isSome
  let keys := rowKeys data
  let content := (store.lookup filename).getD []
  let content := if file_exists then content else content ++ [CsvLine.header keys]
  let data := dictInsert data "numeroControl" numero_control
  let data := dictInsert data "processID" (jstr process_id)
  (dictInsert store filename (content ++ [CsvLine.row (rowCells keys data)]), data)

/-- The fixed fieldnames of the control (run-ledger) file. -/
def controlFieldnames : List String := ["processID", "start_date", "end_date", "status"]

/-- `update_control_file(control_file, process_id, start_date, end_date,
status)` from `main.py`, on the control file's content (`none` = the
file does not exist yet). -/
def update_control_file (control : Option CsvFile)
    (process_id start_date end_date status : String) : CsvFile :=
  let file_exists := control.isSome
  let content := control.getD []
  let content := if file_exists then content else content ++ [CsvLine.header controlFieldnames]
  content ++ [CsvLine.row (rowCells controlFieldnames
    [("processID", jstr process_id), ("start_date", jstr start_date),
     ("end_date", jstr end_date), ("status", jstr status)])]

/-! ## The document router (`process_files_in_folder`)

The per-document loop body (lines 108–128 of `main.py`) is split into a
pure "emission" phase — the sequence of `(group, record)` appends the
loop performs, with a flag that is `false` when an exception interrupts
the loop — and `applyEmissions`, which folds `append_flattened_to_csv`
over that sequence.  The source interleaves computing each record with
appending it; the fold is the same interleaving because each append only
reads the store state left by the previous one. -/

/-- An emission: the group key (`key` in the source; the destination
file is `<output_folder>/<key>.csv`) and the record passed to
`append_flattened_to_csv`. -/
abbrev Emission := String × Rec

/-- The destination file of a group: `os.path.join(output_folder,
f"{key}.csv")`. -/
def groupFile (output_folder key : String) : String :=
  output_folder ++ "/" ++ key ++ ".csv"

/-- The `for item in value` loop for a top-level array value: a dict
element is flattened (which may raise, stopping the loop), any other
element becomes the single-field record `{key: item}`. -/
def elemEmissions (key : String) : JElems → List Emission × Bool
  | JElems.nil => ([], true)
  | JElems.cons item rest =>
    match item with
    | Json.obj fs =>
      match flatten_json (Json.obj fs) "" "." with
      | some flattened =>
        let (t, ok) := elemEmissions key rest
        ((key, flattened) :: t, ok)
      | none => ([], false)
    | Json.arr es =>
      let (t, ok) := elemEmissions key rest
      ((key, [(key, Json.arr es)]) :: t, ok)
    | Json.scalar sc =>
      let (t, ok) := elemEmissions key rest
      ((key, [(key, Json.scalar sc)]) :: t, ok)

/-- The loop body for one top-level entry `(key, value)`: object →
flatten as one record; array → one record per element via
`elemEmissions`; scalar → single-field record.  After the branch, the
`"cuerpo documento"` group additionally gets one empty record. -/
def entryEmissions (key : String) (value : Json) : List Emission × Bool :=
  let base : List Emission × Bool :=
    match value with
    | Json.obj fs =>
      match flatten_json (Json.obj fs) "" "." with
      | some flattened => ([(key, flattened)], true)
      | none => ([], false)
    | Json.arr es => elemEmissions key es
    | Json.scalar sc => ([(key, [(key, Json.scalar sc)])], true)
  match base with
  | (ems, true) =>
    (ems ++ (if key = "cuerpo documento" then [(key, ([] : Rec))] else []), true)
  | (ems, false) => (ems, false)

/-- The `for key, value in json_data.items()` loop over one document's
top-level entries; stops at the first entry whose processing raises. -/
def docEmissions : JFields → List Emission × Bool
  | JFields.nil => ([], true)
  | JFields.cons key value rest =>
    match entryEmissions key value with
    | (ems, true) =>
      let (t, ok) := docEmissions rest
      (ems ++ t, ok)
    | (ems, false) => (ems, false)

/-- Fold `append_flattened_to_csv` over an emission sequence (the
mutated dicts are fresh per call and discarded by the loop). -/
def applyEmissions (output_folder : String) (numero_control : Json)
    (process_id : String) : Store → List Emission → Store
  | store, [] => store
  | store, (key, data) :: rest =>
    applyEmissions output_folder numero_control process_id
      (append_flattened_to_csv store data (groupFile output_folder key)
        numero_control process_id).1 rest

/-- `json_data.get("identificacion", {}).get("numeroControl", "N/A")`
from `main.py`.  `none` models the `AttributeError` raised when
`json_data`, or the value bound to `"identificacion"`, is not a dict. -/
def getNumeroControl (j : Json) : Option Json :=
  match j with
  | Json.obj fs =>
    match (fieldsLookup fs "identificacion").getD (Json.obj JFields.nil) with
    | Json.obj fs2 => some ((fieldsLookup fs2 "numeroControl").getD (jstr "N/A"))
    | _ => none
  | _ => none

/-- An observable storage action of the batch, in the order performed:
appending one record to a group's file, or moving a document from
intake to archive. -/
inductive Event where
  | append (key : String) (data : Rec)
  | move (filename : String)
deriving DecidableEq

/-- The storage state the batch manipulates.  Intake and archive map a
filename to the parse result of the file's content (`none` = the file
is not valid JSON, so `json.load` raises on it). -/
structure SysState where
  intake : List (String × Option Json)
  archive : List (String × Option Json)
  outFiles : Store
  controlFile : Option CsvFile
deriving DecidableEq

/-- The body of the `for filename in os.listdir(input_folder)` loop for
one `.json` file: parse, extract the control number, emit and append
every record, then move the file to the archive.  Returns the new
state, the trace of storage events performed, and whether the body ran
to completion (`false` models an exception escaping the loop body). -/
def processOneFile (output_folder process_id : String) (st : SysState)
    (name : String) (content : Option Json) : SysState × List Event × Bool :=
  match content with
  | none => (st, [], false)
  | some doc =>
    match getNumeroControl doc with
    | none => (st, [], false)
    | some numero_control =>
      match doc with
      | Json.obj fs =>
        let (ems, ok) := docEmissions fs
        let st' := { st with
          outFiles := applyEmissions output_folder numero_control process_id st.outFiles ems }
        let appendEvents := ems.map (fun e => Event.append e.1 e.2)
        if ok then
          ({ st' with
              intake := st'.intake.filter (fun p => p.1 ≠ name),
              archive := dictInsert st'.archive name content },
           appendEvents ++ [Event.move name], true)
        else
          (st', appendEvents, false)
      | _ => (st, [], false)

/-- The `for filename in os.listdir(input_folder)` loop of
`process_files_in_folder`, iterating over the listing taken at entry;
non-`.json` entries are skipped, and the first exception aborts the
whole loop (later files are not processed). -/
def processFilesLoop (output_folder process_id : String) :
    SysState → List (String × Option Json) → SysState × List Event × Bool
  | st, [] => (st, [], true)
  | st, (name, content) :: rest =>
    if name.endsWith ".json" then
      match processOneFile output_folder process_id st name content with
      | (st', evs, true) =>
        let (st'', evs', ok') := processFilesLoop output_folder process_id st' rest
        (st'', evs ++ evs', ok')
      | (st', evs, false) => (st', evs, false)
    else
      processFilesLoop output_folder process_id st rest

/-- `process_files_in_folder` from `main.py` (the `os.makedirs` calls
only create directories and are not modelled). -/
def process_files_in_folder (output_folder process_id : String) (st : SysState) :
    SysState × List Event × Bool :=
  processFilesLoop output_folder process_id st st.intake

/-! ## Timestamps and `main` -/

/-- A local-time clock reading, as `datetime.now()` exposes it to
`strftime('%Y-%m-%d %H:%M:%S')`. -/
structure DateTime where
  year : Nat
  month : Nat
  day : Nat
  hour : Nat
  minute : Nat
  second : Nat
deriving DecidableEq, Repr

/-- The ranges `datetime` guarantees for its components. -/
def DateTime.valid (d : DateTime) : Prop :=
  d.year ≤ 9999 ∧ 1 ≤ d.month ∧ d.month ≤ 12 ∧ 1 ≤ d.day ∧ d.day ≤ 31 ∧
    d.hour ≤ 23 ∧ d.minute ≤ 59 ∧ d.second ≤ 59

instance : DecidablePred DateTime.valid := fun d => by
  unfold DateTime.valid; infer_instance

/-- Chronological order of clock readings (component-lexicographic,
which agrees with time order on valid readings). -/
def DateTime.chronLe (a b : DateTime) : Prop :=
  a.year < b.year ∨ (a.year = b.year ∧ (a.month < b.month ∨ (a.month = b.month ∧
    (a.day < b.day ∨ (a.day = b.day ∧ (a.hour < b.hour ∨ (a.hour = b.hour ∧
      (a.minute < b.minute ∨ (a.minute = b.minute ∧ a.second ≤ b.second)))))))))

instance : ∀ a b : DateTime, Decidable (DateTime.chronLe a b) := fun a b => by
  unfold DateTime.chronLe; infer_instance

/-- The digit character of `n % 10`. -/
def digitChar (n : Nat) : Char := Char.ofNat (48 + n % 10)

/-- A number rendered `%02d`-style (correct for `n ≤ 99`). -/
def pad2 (n : Nat) : String := String.mk [digitChar (n / 10), digitChar n]

/-- A number rendered `%04d`-style (correct for `n ≤ 9999`). -/
def pad4 (n : Nat) : String :=
  String.mk [digitChar (n / 1000), digitChar (n / 100), digitChar (n / 10), digitChar n]

/-- `datetime.strftime('%Y-%m-%d %H:%M:%S')`. -/
def formatTimestamp (d : DateTime) : String :=
  pad4 d.year ++ "-" ++ pad2 d.month ++ "-" ++ pad2 d.day ++ " " ++
    pad2 d.hour ++ ":" ++ pad2 d.minute ++ ":" ++ pad2 d.second

/-- A character is a decimal digit. -/
def isDigitChar (c : Char) : Prop := 48 ≤ c.toNat ∧ c.toNat ≤ 57

/-- The string has shape `YYYY-MM-DD HH:MM:SS`: exactly 19 characters,
digits in the date/time positions, `-`, a space and `:` as separators. -/
def matchesTsPattern (s : String) : Prop :=
  match s.data with
  | [y1, y2, y3, y4, h1, m1, m2, h2, d1, d2, sp, a1, a2, c1, b1, b2, c2, e1, e2] =>
    isDigitChar y1 ∧ isDigitChar y2 ∧ isDigitChar y3 ∧ isDigitChar y4 ∧
    h1 = '-' ∧ isDigitChar m1 ∧ isDigitChar m2 ∧ h2 = '-' ∧
    isDigitChar d1 ∧ isDigitChar d2 ∧ sp = ' ' ∧
    isDigitChar a1 ∧ isDigitChar a2 ∧ c1 = ':' ∧
    isDigitChar b1 ∧ isDigitChar b2 ∧ c2 = ':' ∧
    isDigitChar e1 ∧ isDigitChar e2
  | _ => False

/-- `main()` from `main.py`, with the configured folders, the global
`process_id`, and the two `datetime.now()` readings passed explicitly.
The folder paths for intake/archive are absorbed into `SysState`. -/
def main (output_folder process_id : String) (startDT endDT : DateTime)
    (st : SysState) : SysState × List Event :=
  let start_date := formatTimestamp startDT
  let (st1, evs, ok) := process_files_in_folder output_folder process_id st
  let status := if ok then "Success" else "Failed"
  let end_date := formatTimestamp endDT
  let newControl := update_control_file st1.controlFile process_id start_date end_date status
  ({ st1 with controlFile := some newControl }, evs)

/-- Number of data rows in a CSV file. -/
def rowCount (f : CsvFile) : Nat :=
  f.countP (fun l => match l with | CsvLine.row _ => true | _ => false)

/-! ## Auxiliary predicates and concrete documents used by the claims -/

/-- All values of the object's fields are scalars (a depth-0 record). -/
def JFields.allScalar : JFields → Bool
  | JFields.nil => true
  | JFields.cons _ v rest =>
    (match v with | Json.scalar _ => true | _ => false) && rest.allScalar

/-- A value is a JSON object. -/
def Json.isObj : Json → Bool
  | Json.obj _ => true
  | _ => false

/-- The nested path `identificacion.numeroControl` is absent from the
document, read the way the claim words it: the top-level key
`identificacion` is missing, or the value bound to it is not an object
containing the key `numeroControl`. -/
def lacksNumeroControlPath (fs : JFields) : Prop :=
  fieldsLookup fs "identificacion" = none ∨
    ∃ v, fieldsLookup fs "identificacion" = some v ∧
      (∀ fs2, v = Json.obj fs2 → fieldsLookup fs2 "numeroControl" = none)

/-- The document `{"x": {"p":1}, "y": [1,2], "z": "s"}` of claim C3. -/
def docC3 : JFields := JFields.ofList
  [("x", jobj [("p", jint 1)]), ("y", jarr [jint 1, jint 2]), ("z", jstr "s")]

/-- A single-document intake state used as a concrete run. -/
def stW : SysState := ⟨[("d.json", some (jobj [("z", jstr "s")]))], [], [], none⟩

/-! ## Helper lemmas: the string order -/

theorem strLtList_irrefl (l : List Char) : strLtList l l = false := by
  induction l with
  | nil => rfl
  | cons a as ih => simp [strLtList, ih]

theorem strLtList_asymm :
    ∀ (a b : List Char), strLtList a b = true → strLtList b a = false := by
  intro a
  induction a with
  | nil =>
    intro b h
    cases b with
    | nil => simp [strLtList] at h
    | cons y ys => simp [strLtList]
  | cons x xs ih =>
    intro b h
    cases b with
    | nil => simp [strLtList] at h
    | cons y ys =>
      rcases Nat.lt_trichotomy x.toNat y.toNat with h1 | h1 | h1
      · simp [strLtList, h1, Nat.lt_asymm h1]
      · simp only [strLtList, h1, Nat.lt_irrefl, if_false] at h ⊢
        exact ih ys h
      · simp [strLtList, h1, Nat.lt_asymm h1] at h

theorem strLtList_trans_neg :
    ∀ (a b c : List Char),
      strLtList b a = false → strLtList c b = false → strLtList c a = false := by
  intro a
  induction a with
  | nil =>
    intro b c _ _
    cases c with
    | nil => rfl
    | cons z zs => rfl
  | cons x xs ih =>
    intro b c h1 h2
    cases b with
    | nil => simp [strLtList] at h1
    | cons y ys =>
      cases c with
      | nil => simp [strLtList] at h2
      | cons z zs =>
        rcases Nat.lt_trichotomy y.toNat x.toNat with hyx | hyx | hyx
        · simp [strLtList, hyx] at h1
        · rcases Nat.lt_trichotomy z.toNat y.toNat with hzy | hzy | hzy
          · simp [strLtList, hzy] at h2
          · have hzx : ¬ z.toNat < x.toNat := by omega
            have hxz : ¬ x.toNat < z.toNat := by omega
            have h1' : strLtList ys xs = false := by
              simpa [strLtList, hyx, Nat.lt_irrefl] using h1
            have h2' : strLtList zs ys = false := by
              simpa [strLtList, hzy, Nat.lt_irrefl] using h2
            simpa [strLtList, hzx, hxz] using ih ys zs h1' h2'
          · have hzx : ¬ z.toNat < x.toNat := by omega
            have hxz : x.toNat < z.toNat := by omega
            simp [strLtList, hzx, hxz]
        · rcases Nat.lt_trichotomy z.toNat y.toNat with hzy | hzy | hzy
          · simp [strLtList, hzy] at h2
          · have hzx : ¬ z.toNat < x.toNat := by omega
            have hxz : x.toNat < z.toNat := by omega
            simp [strLtList, hzx, hxz]
          · have hzx : ¬ z.toNat < x.toNat := by omega
            have hxz : x.toNat < z.toNat := by omega
            simp [strLtList, hzx, hxz]

instance : IsTrans String strLe :=
  ⟨fun a b c hab hbc => strLtList_trans_neg a.data b.data c.data hab hbc⟩

instance : IsTotal String strLe := by
  refine ⟨fun a b => ?_⟩
  by_cases h : strLtList b.data a.data = true
  · exact Or.inr (strLtList_asymm _ _ h)
  · exact Or.inl (Bool.eq_false_iff.mpr h)

theorem sorted_sortedStrings (l : List String) :
    List.Sorted strLe (sortedStrings l) :=
  List.sorted_insertionSort strLe l

theorem perm_sortedStrings (l : List String) : (sortedStrings l).Perm l :=
  List.perm_insertionSort strLe l

theorem mem_sortedStrings {a : String} {l : List String} :
    a ∈ sortedStrings l ↔ a ∈ l :=
  (perm_sortedStrings l).mem_iff

/-! ## Helper lemmas: dedup and dict operations -/

theorem mem_dedupKeys {a : String} : ∀ {l : List String}, a ∈ dedupKeys l ↔ a ∈ l := by
  intro l
  induction l with
  | nil => simp [dedupKeys]
  | cons x xs ih =>
    by_cases h : x ∈ xs
    · simp only [dedupKeys, if_pos h, ih, List.mem_cons]
      constructor
      · exact Or.inr
      · rintro (rfl | hx)
        · exact h
        · exact hx
    · simp [dedupKeys, if_neg h, ih]

theorem nodup_dedupKeys : ∀ (l : List String), (dedupKeys l).Nodup := by
  intro l
  induction l with
  | nil => simp [dedupKeys]
  | cons x xs ih =>
    by_cases h : x ∈ xs
    · simpa [dedupKeys, if_pos h] using ih
    · simp only [dedupKeys, if_neg h]
      exact List.Nodup.cons (fun hx => h (mem_dedupKeys.mp hx)) ih

theorem lookup_dictInsert_self {β : Type} (d : List (String × β)) (k : String) (v : β) :
    (dictInsert d k v).lookup k = some v := by
  induction d with
  | nil => simp [dictInsert, List.lookup]
  | cons p t ih =>
    obtain ⟨a, b⟩ := p
    by_cases h : a = k
    · simp [dictInsert, if_pos h, List.lookup, h]
    · have hk : (k == a) = false := beq_eq_false_iff_ne.mpr (Ne.symm h)
      simp [dictInsert, if_neg h, List.lookup, hk, ih]

theorem lookup_dictInsert_ne {β : Type} (d : List (String × β)) (k k' : String) (v : β)
    (h : k' ≠ k) : (dictInsert d k v).lookup k' = d.lookup k' := by
  have hk : (k' == k) = false := beq_eq_false_iff_ne.mpr h
  induction d with
  | nil => simp [dictInsert, List.lookup, hk]
  | cons p t ih =>
    obtain ⟨a, b⟩ := p
    by_cases ha : a = k
    · subst ha
      simp [dictInsert, List.lookup, hk]
    · simp [dictInsert, if_neg ha, List.lookup, ih]

theorem dictInsert_of_not_mem {β : Type} (d : List (String × β)) (k : String) (v : β)
    (h : k ∉ d.map Prod.fst) : dictInsert d k v = d ++ [(k, v)] := by
  induction d with
  | nil => rfl
  | cons p t ih =>
    obtain ⟨a, b⟩ := p
    simp only [List.map_cons, List.mem_cons, not_or] at h
    simp [dictInsert, Ne.symm h.1, ih h.2]

theorem foldl_dictInsert_of_nodup :
    ∀ (l acc : Rec), ((acc ++ l).map Prod.fst).Nodup →
      List.foldl (fun acc p => dictInsert acc p.1 p.2) acc l = acc ++ l := by
  intro l
  induction l with
  | nil => intro acc _; simp
  | cons p t ih =>
    intro acc h
    have hmem : p.1 ∉ acc.map Prod.fst := by
      intro hx
      have : p.1 ∈ (acc.map Prod.fst) ∧ p.1 ∈ ((p :: t).map Prod.fst) :=
        ⟨hx, by simp⟩
      have hd := (List.nodup_append.mp (by simpa [List.map_append] using h)).2.2
      exact hd hx (by simp)
    have hstep : dictInsert acc p.1 p.2 = acc ++ [p] := by
      simpa using dictInsert_of_not_mem acc p.1 p.2 hmem
    have hperm : ((acc ++ [p]) ++ t).map Prod.fst = ((acc ++ p :: t).map Prod.fst) := by
      simp
    rw [List.foldl_cons, hstep, ih (acc ++ [p]) (by rw [hperm]; exact h)]
    simp

/-- `dict(items)` is the identity on a pair list whose keys are already
unique (a Python dict round-trips through `dict(d.items())`). -/
theorem toDict_of_nodup (l : Rec) (h : (l.map Prod.fst).Nodup) : toDict l = l := by
  simpa using foldl_dictInsert_of_nodup l [] (by simpa using h)

/-! ## Helper lemmas: the appender's column set and rows -/

theorem mem_rowKeys {data : Rec} {k : String} :
    k ∈ rowKeys data ↔
      k ∈ data.map Prod.fst ∨ k = "numeroControl" ∨ k = "processID" := by
  simp [rowKeys, mem_sortedStrings, mem_dedupKeys]

theorem nodup_rowKeys (data : Rec) : (rowKeys data).Nodup :=
  (perm_sortedStrings _).nodup_iff.mpr (nodup_dedupKeys _)

theorem sorted_rowKeys (data : Rec) : List.Sorted strLe (rowKeys data) :=
  sorted_sortedStrings _

theorem rowCells_map_fst (fieldnames : List String) (data : Rec) :
    (rowCells fieldnames data).map Prod.fst = fieldnames := by
  simp only [rowCells, List.map_map]
  exact List.map_congr_left (fun a _ => rfl) |>.trans (List.map_id _)

theorem mem_rowCells_of_lookup {fieldnames : List String} {data : Rec} {k : String}
    {v : Json} (hk : k ∈ fieldnames) (hv : data.lookup k = some v) :
    (k, v) ∈ rowCells fieldnames data := by
  simp only [rowCells, List.mem_map]
  exact ⟨k, hk, by simp [hv]⟩

/-! ## Helper lemmas: flattening a flat record -/

theorem flattenFields_allScalar :
    ∀ (fs : JFields) (sep : String), fs.allScalar = true →
      flattenFields fs "" sep = some fs.toList
  | JFields.nil, _, _ => rfl
  | JFields.cons k v rest, sep, h => by
    simp only [JFields.allScalar, Bool.and_eq_true] at h
    obtain ⟨hv, hrest⟩ := h
    cases v with
    | obj fs2 => simp at hv
    | arr es => simp at hv
    | scalar sc =>
      simp [flattenFields, flattenFields_allScalar rest sep hrest, JFields.toList]

/-! ## Helper lemmas: the appender's output -/

theorem lookup_append_flattened (store : Store) (data : Rec) (filename : String)
    (nc : Json) (pid : String) :
    ((append_flattened_to_csv store data filename nc pid).1).lookup filename =
      some ((if (store.lookup filename).isSome then (store.lookup filename).getD []
             else [CsvLine.header (rowKeys data)]) ++
        [CsvLine.row (rowCells (rowKeys data)
          (append_flattened_to_csv store data filename nc pid).2)]) := by
  simp only [append_flattened_to_csv]
  cases h : store.lookup filename with
  | none => simp [h, lookup_dictInsert_self]
  | some c => simp [h, lookup_dictInsert_self]

theorem mutated_lookup_numeroControl (store : Store) (data : Rec) (filename : String)
    (nc : Json) (pid : String) :
    ((append_flattened_to_csv store data filename nc pid).2).lookup "numeroControl" =
      some nc := by
  show (dictInsert (dictInsert data "numeroControl" nc) "processID"
      (jstr pid)).lookup "numeroControl" = some nc
  rw [lookup_dictInsert_ne _ _ _ _ (by decide), lookup_dictInsert_self]

theorem mutated_lookup_processID (store : Store) (data : Rec) (filename : String)
    (nc : Json) (pid : String) :
    ((append_flattened_to_csv store data filename nc pid).2).lookup "processID" =
      some (jstr pid) := by
  show (dictInsert (dictInsert data "numeroControl" nc) "processID"
      (jstr pid)).lookup "processID" = some (jstr pid)
  rw [lookup_dictInsert_self]

/-! ## The claims -/

/-- C1 (counterexample): the claim says the Flattener recurses into
every array element uniformly, and in particular that flattening
`{"a": [1,2]}` yields `{"a[0]": 1, "a[1]": 2}`.  On the code,
`flatten_json` calls itself on each element and immediately calls
`.items()` on it, so a scalar element raises `AttributeError`:
flattening `{"a": [1,2]}` raises instead of producing that mapping. -/
theorem C1_counterexample :
    flatten_json (jobj [("a", jarr [jint 1, jint 2])]) "" "." = none ∧
    flatten_json (jobj [("a", jarr [jint 1, jint 2])]) "" "." ≠
      some [("a[0]", jint 1), ("a[1]", jint 2)] := by
  exact ⟨rfl, by decide⟩

/-- C1 (amended): the Flattener recurses into an array element with
`[index]` (zero-based) appended to the path only when the element is an
object; a non-object element (scalar or array) makes the Flattener
raise.  In particular `{"a": [{"b":1},{"b":2}]}` flattens to
`{"a[0].b": 1, "a[1].b": 2}`, while `{"a": [1,2]}` raises. -/
theorem C1_amended_array_recursion :
    (∀ (item : Json) (rest : JElems) (key sep : String) (i : Nat),
        item.isObj = false →
        flattenElems (JElems.cons item rest) key sep i = none) ∧
    (∀ (fs : JFields) (rest : JElems) (key sep : String) (i : Nat),
        flattenElems (JElems.cons (Json.obj fs) rest) key sep i =
          match flatten_json (Json.obj fs) (key ++ "[" ++ toString i ++ "]") sep,
                flattenElems rest key sep (i + 1) with
          | some h, some t => some (h ++ t)
          | _, _ => none) ∧
    flatten_json (jobj [("a", jarr [jobj [("b", jint 1)], jobj [("b", jint 2)]])]) "" "." =
      some [("a[0].b", jint 1), ("a[1].b", jint 2)] := by
  refine ⟨?_, fun fs rest key sep i => rfl, rfl⟩
  intro item rest key sep i h
  cases item with
  | obj fs => simp [Json.isObj] at h
  | arr es => simp [flattenElems, flatten_json]
  | scalar sc => simp [flattenElems, flatten_json]

/-- C1 (witness for the amended theorem): a scalar array element makes
the element loop raise. -/
theorem C1_witness :
    flattenElems (JElems.cons (jint 1) JElems.nil) "a" "." 0 = none :=
  C1_amended_array_recursion.1 (jint 1) JElems.nil "a" "." 0 (by decide)

/-- C3: routing the document `{"x": {"p":1}, "y": [1,2], "z": "s"}`
emits exactly one record to group `x` (the flattening of `{"p":1}`),
two single-field records `{"y":1}` and `{"y":2}` to group `y`, and one
record `{"z":"s"}` to group `z`; the top-level scalar array elements
are wrapped as single-field records, not flattened. -/
theorem C3_router_groups :
    docEmissions docC3 =
      ([("x", [("p", jint 1)]), ("y", [("y", jint 1)]), ("y", [("y", jint 2)]),
        ("z", [("z", jstr "s")])], true) ∧
    ((docEmissions docC3).1.filter (fun e => e.1 = "x")) = [("x", [("p", jint 1)])] ∧
    ((docEmissions docC3).1.filter (fun e => e.1 = "y")) =
      [("y", [("y", jint 1)]), ("y", [("y", jint 2)])] ∧
    ((docEmissions docC3).1.filter (fun e => e.1 = "z")) = [("z", [("z", jstr "s")])] :=
  ⟨rfl, rfl, rfl, rfl⟩

/-- C5: the Flattener is the identity on a depth-0 record: flattening a
mapping whose values are all scalars, with an empty prefix, returns
the mapping unchanged (for any separator). -/
theorem C5_flatten_flat_identity (fs : JFields) (sep : String)
    (h1 : fs.allScalar = true) (h2 : ((fs.toList).map Prod.fst).Nodup) :
    flatten_json (Json.obj fs) "" sep = some fs.toList := by
  simp only [flatten_json, flattenFields_allScalar fs sep h1]
  rw [toDict_of_nodup _ h2]

/-- C5 (witness): the flat record `{"a": 1, "b": "x"}` flattens to
itself. -/
theorem C5_witness :
    (JFields.ofList [("a", jint 1), ("b", jstr "x")]).allScalar = true ∧
    (((JFields.ofList [("a", jint 1), ("b", jstr "x")]).toList).map Prod.fst).Nodup ∧
    flatten_json (Json.obj (JFields.ofList [("a", jint 1), ("b", jstr "x")])) "" "." =
      some (JFields.ofList [("a", jint 1), ("b", jstr "x")]).toList :=
  ⟨by decide, by decide, C5_flatten_flat_identity _ "." (by decide) (by decide)⟩

/-- C8 (counterexample): the claim says a missing
`identificacion.numeroControl` path is never an error.  But when the
top-level key `identificacion` is present and bound to a non-object
(here the number `5`) — a document that does lack the nested path —
the chained `.get` raises `AttributeError` instead of substituting
`"N/A"`. -/
theorem C8_counterexample :
    lacksNumeroControlPath (JFields.ofList [("identificacion", jint 5)]) ∧
    getNumeroControl (jobj [("identificacion", jint 5)]) = none := by
  constructor
  · exact Or.inr ⟨jint 5, rfl, fun fs2 h => by simp [jint] at h⟩
  · rfl

/-- C8 (amended): when the top-level key `identificacion` is missing,
or is bound to an object that lacks the key `numeroControl`, the
extraction is not an error: it returns the sentinel `"N/A"` (so the
document's processing continues). -/
theorem C8_amended_missing_control_number (fs : JFields)
    (h : fieldsLookup fs "identificacion" = none ∨
         ∃ fs2, fieldsLookup fs "identificacion" = some (Json.obj fs2) ∧
           fieldsLookup fs2 "numeroControl" = none) :
    getNumeroControl (Json.obj fs) = some (jstr "N/A") := by
  rcases h with h | ⟨fs2, h1, h2⟩
  · simp [getNumeroControl, h, fieldsLookup]
  · simp [getNumeroControl, h1, h2]

/-- C8 (witness): a document with no `identificacion` key at all gets
the sentinel. -/
theorem C8_witness :
    getNumeroControl (Json.obj JFields.nil) = some (jstr "N/A") :=
  C8_amended_missing_control_number JFields.nil (Or.inl rfl)

/-- C9 (counterexample): the claim says the Tabular Appender leaves the
caller's record unchanged.  It does not: `append_flattened_to_csv`
assigns `data["numeroControl"]` and `data["processID"]` into the
caller's dict, so appending the empty record leaves it with two
entries. -/
theorem C9_counterexample :
    (append_flattened_to_csv [] [] "f" (jstr "N/A") "pid").2 ≠ ([] : Rec) := by
  decide

/-- C9 (amended): the appender mutates the caller's record only at the
two injected keys: every lookup other than `"numeroControl"` and
`"processID"` is unchanged by the call. -/
theorem C9_amended_frame (store : Store) (data : Rec) (filename : String)
    (nc : Json) (pid : String) (k : String)
    (h1 : k ≠ "numeroControl") (h2 : k ≠ "processID") :
    ((append_flattened_to_csv store data filename nc pid).2).lookup k =
      data.lookup k := by
  show (dictInsert (dictInsert data "numeroControl" nc) "processID"
      (jstr pid)).lookup k = data.lookup k
  rw [lookup_dictInsert_ne _ _ _ _ h2, lookup_dictInsert_ne _ _ _ _ h1]

/-- C9 (witness): the binding of `"a"` survives an append untouched. -/
theorem C9_witness :
    ((append_flattened_to_csv [] [("a", jint 1)] "f" (jstr "N/A") "pid").2).lookup "a" =
      ([("a", jint 1)] : Rec).lookup "a" :=
  C9_amended_frame [] [("a", jint 1)] "f" (jstr "N/A") "pid" "a" (by decide) (by decide)

/-- C10: the Flattener's path-strings are not injective and later
entries win on collision: in `{"a.b": 1, "a": {"b": 2}}` both the
top-level key `"a.b"` and the nested leaf `a → b` produce the path
`"a.b"`, and the result holds a single entry bound to the value
produced last in iteration order (`2`), dropping the `1`. -/
theorem C10_collision_last_wins :
    flatten_json (jobj [("a.b", jint 1), ("a", jobj [("b", jint 2)])]) "" "." =
      some [("a.b", jint 2)] := rfl

/-- C2: for every call of the Tabular Appender, the column set is
exactly the record's keys plus the two injected fields, listed once
each in lexicographic order; when the destination file does not exist
the written content is that header followed by the row, when it exists
the prior content is kept verbatim with only the row appended (no
header written or re-read); and the row's cells are laid out in the
order of this call's own sorted column set. -/
theorem C2_appender_schema (store : Store) (data : Rec) (filename : String)
    (nc : Json) (pid : String) :
    List.Sorted strLe (rowKeys data) ∧
    (rowKeys data).Nodup ∧
    (∀ k, k ∈ rowKeys data ↔
        k ∈ data.map Prod.fst ∨ k = "numeroControl" ∨ k = "processID") ∧
    ((append_flattened_to_csv store data filename nc pid).1).lookup filename =
      some ((if (store.lookup filename).isSome then (store.lookup filename).getD []
             else [CsvLine.header (rowKeys data)]) ++
        [CsvLine.row (rowCells (rowKeys data)
          (append_flattened_to_csv store data filename nc pid).2)]) ∧
    (rowCells (rowKeys data)
        (append_flattened_to_csv store data filename nc pid).2).map Prod.fst =
      rowKeys data :=
  ⟨sorted_rowKeys data, nodup_rowKeys data, fun _ => mem_rowKeys,
    lookup_append_flattened store data filename nc pid, rowCells_map_fst _ _⟩

/-- C4: every row the Tabular Appender persists carries the
control-number field `"numeroControl"` (bound to the call's control
number) and the run-identifier field `"processID"` (bound to the run
id), whatever the source record contained; appending the empty record
(the `"cuerpo documento"` boundary marker) writes a row with exactly
those two cells. -/
theorem C4_injected_fields (store : Store) (data : Rec) (filename : String)
    (nc : Json) (pid : String) :
    ("numeroControl", nc) ∈
      rowCells (rowKeys data) (append_flattened_to_csv store data filename nc pid).2 ∧
    ("processID", jstr pid) ∈
      rowCells (rowKeys data) (append_flattened_to_csv store data filename nc pid).2 ∧
    (∃ pre, ((append_flattened_to_csv store data filename nc pid).1).lookup filename =
      some (pre ++ [CsvLine.row (rowCells (rowKeys data)
        (append_flattened_to_csv store data filename nc pid).2)])) ∧
    rowCells (rowKeys ([] : Rec)) (append_flattened_to_csv store [] filename nc pid).2 =
      [("numeroControl", nc), ("processID", jstr pid)] := by
  refine ⟨?_, ?_, ⟨_, lookup_append_flattened store data filename nc pid⟩, rfl⟩
  · exact mem_rowCells_of_lookup (mem_rowKeys.mpr (Or.inr (Or.inl rfl)))
      (mutated_lookup_numeroControl store data filename nc pid)
  · exact mem_rowCells_of_lookup (mem_rowKeys.mpr (Or.inr (Or.inr rfl)))
      (mutated_lookup_processID store data filename nc pid)

/-- C6: when a document's loop body runs to completion, its event
trace consists of all its record appends followed by the move from
intake to archive: the move is the last action taken for the document,
after every derived record has been appended. -/
theorem C6_archive_last (out pid : String) (st : SysState) (name : String)
    (content : Option Json) (st' : SysState) (evs : List Event)
    (h : processOneFile out pid st name content = (st', evs, true)) :
    ∃ es, evs = es ++ [Event.move name] ∧
      ∀ e ∈ es, ∃ k d, e = Event.append k d := by
  unfold processOneFile at h
  split at h
  · simp at h
  · split at h
    · simp at h
    · split at h
      · rename_i fs hnc
        rcases hde : docEmissions fs with ⟨ems, ok⟩
        rw [hde] at h
        cases ok
        · simp at h
        · simp only [if_true, Prod.mk.injEq] at h
          obtain ⟨-, hevs, -⟩ := h
          refine ⟨_, hevs.symm, ?_⟩
          intro e he
          simp only [List.mem_map] at he
          obtain ⟨⟨k, d⟩, -, rfl⟩ := he
          exact ⟨k, d, rfl⟩
      · simp at h

/-! ## Helper lemmas: timestamp rendering -/

theorem digitChar_toNat (n : Nat) : (digitChar n).toNat = 48 + n % 10 := by
  have hv : (48 + n % 10).isValidChar := Or.inl (by omega)
  simp [digitChar, Char.ofNat, hv, Char.ofNatAux, Char.toNat, UInt32.toNat]

theorem isDigitChar_digitChar (n : Nat) : isDigitChar (digitChar n) := by
  unfold isDigitChar
  rw [digitChar_toNat]
  omega

theorem matchesTsPattern_format (d : DateTime) :
    matchesTsPattern (formatTimestamp d) := by
  have hd : ∀ n : Nat, isDigitChar (digitChar n) := isDigitChar_digitChar
  exact ⟨hd _, hd _, hd _, hd _, rfl, hd _, hd _, rfl, hd _, hd _, rfl, hd _, hd _,
    rfl, hd _, hd _, rfl, hd _, hd _⟩

theorem strLtList_append (a1 : List Char) :
    ∀ (b1 a2 b2 : List Char), a1.length = b1.length →
      strLtList (a1 ++ a2) (b1 ++ b2) =
        (if strLtList a1 b1 then true
         else if strLtList b1 a1 then false
         else strLtList a2 b2) := by
  induction a1 with
  | nil =>
    intro b1 a2 b2 h
    cases b1 with
    | nil => simp [strLtList]
    | cons y ys => simp at h
  | cons x xs ih =>
    intro b1 a2 b2 h
    cases b1 with
    | nil => simp at h
    | cons y ys =>
      simp only [List.cons_append, strLtList]
      rcases Nat.lt_trichotomy x.toNat y.toNat with h1 | h1 | h1
      · simp [h1, Nat.lt_asymm h1]
      · have hxy : ¬ x.toNat < y.toNat := by omega
        have hyx : ¬ y.toNat < x.toNat := by omega
        simp only [hxy, hyx, if_false]
        exact ih ys a2 b2 (by simpa using h)
      · simp [h1, Nat.lt_asymm h1]

theorem strLtList_cons_same (c : Char) (x y : List Char) :
    strLtList (c :: x) (c :: y) = strLtList x y := by
  simp [strLtList]

theorem strLtList_pad2 (a b : Nat) (ha : a ≤ 99) (hb : b ≤ 99) :
    strLtList (pad2 a).data (pad2 b).data = decide (a < b) := by
  show strLtList [digitChar (a / 10), digitChar a] [digitChar (b / 10), digitChar b] =
    decide (a < b)
  simp only [strLtList, digitChar_toNat]
  by_cases h1 : 48 + a / 10 % 10 < 48 + b / 10 % 10
  · simp [h1, show a < b by omega]
  · by_cases h2 : 48 + b / 10 % 10 < 48 + a / 10 % 10
    · simp [h1, h2, show ¬ a < b by omega]
    · by_cases h3 : 48 + a % 10 < 48 + b % 10
      · simp [h1, h2, h3, show a < b by omega]
      · by_cases h4 : 48 + b % 10 < 48 + a % 10
        · simp [h1, h2, h3, h4, show ¬ a < b by omega]
        · simp [h1, h2, h3, h4, show ¬ a < b by omega]

theorem digitChar_congr {x y : Nat} (h : x % 10 = y % 10) : digitChar x = digitChar y := by
  unfold digitChar
  rw [h]

theorem pad4_data_eq (a : Nat) :
    (pad4 a).data = (pad2 (a / 100)).data ++ (pad2 (a % 100)).data := by
  show [digitChar (a / 1000), digitChar (a / 100), digitChar (a / 10), digitChar a] =
    [digitChar (a / 100 / 10), digitChar (a / 100), digitChar (a % 100 / 10),
      digitChar (a % 100)]
  rw [digitChar_congr (show (a / 1000) % 10 = (a / 100 / 10) % 10 by omega),
    digitChar_congr (show (a / 10) % 10 = (a % 100 / 10) % 10 by omega),
    digitChar_congr (show a % 10 = (a % 100) % 10 by omega)]

theorem strLtList_pad4 (a b : Nat) (ha : a ≤ 9999) (hb : b ≤ 9999) :
    strLtList (pad4 a).data (pad4 b).data = decide (a < b) := by
  rw [pad4_data_eq a, pad4_data_eq b, strLtList_append _ _ _ _ (by rfl),
    strLtList_pad2 (a / 100) (b / 100) (by omega) (by omega),
    strLtList_pad2 (b / 100) (a / 100) (by omega) (by omega),
    strLtList_pad2 (a % 100) (b % 100) (by omega) (by omega)]
  by_cases h1 : a / 100 < b / 100
  · simp [h1, show a < b by omega]
  · by_cases h2 : b / 100 < a / 100
    · simp [h1, h2, show ¬ a < b by omega]
    · by_cases h3 : a % 100 < b % 100
      · simp [h1, h2, h3, show a < b by omega]
      · simp [h1, h2, h3, show ¬ a < b by omega]

theorem formatTimestamp_data (d : DateTime) :
    (formatTimestamp d).data =
      (pad4 d.year).data ++ ('-' :: ((pad2 d.month).data ++ ('-' :: ((pad2 d.day).data ++
        (' ' :: ((pad2 d.hour).data ++ (':' :: ((pad2 d.minute).data ++
          (':' :: ((pad2 d.second).data ++ [])))))))))) := rfl

/-- Zero-padded fixed-width rendering is order-preserving: a
chronologically earlier valid reading formats to a lexicographically
smaller-or-equal string. -/
theorem formatTimestamp_mono (a b : DateTime) (hav : a.valid) (hbv : b.valid)
    (h : DateTime.chronLe a b) :
    strLe (formatTimestamp a) (formatTimestamp b) := by
  obtain ⟨ha1, ha2, ha3, ha4, ha5, ha6, ha7, ha8⟩ := hav
  obtain ⟨hb1, hb2, hb3, hb4, hb5, hb6, hb7, hb8⟩ := hbv
  show strLtList (formatTimestamp b).data (formatTimestamp a).data = false
  rw [formatTimestamp_data a, formatTimestamp_data b,
    strLtList_append _ _ _ _ (by rfl), strLtList_pad4 b.year a.year hb1 ha1,
    strLtList_pad4 a.year b.year ha1 hb1]
  rcases h with hy | ⟨hy, h⟩
  · simp [hy, Nat.lt_asymm hy]
  · simp only [hy, lt_self_iff_false, decide_False, Bool.false_eq_true, if_false]
    rw [strLtList_cons_same, strLtList_append _ _ _ _ (by rfl),
      strLtList_pad2 b.month a.month (by omega) (by omega),
      strLtList_pad2 a.month b.month (by omega) (by omega)]
    rcases h with hm | ⟨hm, h⟩
    · simp [hm, Nat.lt_asymm hm]
    · simp only [hm, lt_self_iff_false, decide_False, Bool.false_eq_true, if_false]
      rw [strLtList_cons_same, strLtList_append _ _ _ _ (by rfl),
        strLtList_pad2 b.day a.day (by omega) (by omega),
        strLtList_pad2 a.day b.day (by omega) (by omega)]
      rcases h with hd | ⟨hd, h⟩
      · simp [hd, Nat.lt_asymm hd]
      · simp only [hd, lt_self_iff_false, decide_False, Bool.false_eq_true, if_false]
        rw [strLtList_cons_same, strLtList_append _ _ _ _ (by rfl),
          strLtList_pad2 b.hour a.hour (by omega) (by omega),
          strLtList_pad2 a.hour b.hour (by omega) (by omega)]
        rcases h with hh | ⟨hh, h⟩
        · simp [hh, Nat.lt_asymm hh]
        · simp only [hh, lt_self_iff_false, decide_False, Bool.false_eq_true, if_false]
          rw [strLtList_cons_same, strLtList_append _ _ _ _ (by rfl),
            strLtList_pad2 b.minute a.minute (by omega) (by omega),
            strLtList_pad2 a.minute b.minute (by omega) (by omega)]
          rcases h with hmi | ⟨hmi, h⟩
          · simp [hmi, Nat.lt_asymm hmi]
          · simp only [hmi, lt_self_iff_false, decide_False, Bool.false_eq_true, if_false]
            rw [strLtList_cons_same, strLtList_append _ _ _ _ (by rfl),
              strLtList_pad2 b.second a.second (by omega) (by omega),
              strLtList_pad2 a.second b.second (by omega) (by omega)]
            have h1 : ¬ b.second < a.second := by omega
            by_cases h2 : a.second < b.second
            · simp [h1, h2]
            · simp [h1, h2, strLtList]

/-- C6 (witness): a one-entry document is processed successfully, and
its trace is one append followed by the move. -/
theorem C6_witness :
    ∃ es, ([Event.append "z" [("z", jstr "s")], Event.move "d.json"] : List Event) =
        es ++ [Event.move "d.json"] ∧ ∀ e ∈ es, ∃ k d, e = Event.append k d :=
  C6_archive_last "out" "pid" stW "d.json" (some (jobj [("z", jstr "s")]))
    (processOneFile "out" "pid" stW "d.json" (some (jobj [("z", jstr "s")]))).1
    [Event.append "z" [("z", jstr "s")], Event.move "d.json"] (by rfl)

/-! ## Helper lemmas: folder processing never touches the control file -/

theorem processOneFile_controlFile (out pid : String) (st : SysState)
    (name : String) (content : Option Json) :
    ((processOneFile out pid st name content).1).controlFile = st.controlFile := by
  unfold processOneFile
  split
  · rfl
  · split
    · rfl
    · split
      · rename_i fs hnc
        rcases hde : docEmissions fs with ⟨ems, ok⟩
        cases ok <;> rfl
      · rfl

theorem processFilesLoop_controlFile (out pid : String) :
    ∀ (files : List (String × Option Json)) (st : SysState),
      ((processFilesLoop out pid st files).1).controlFile = st.controlFile := by
  intro files
  induction files with
  | nil => intro st; rfl
  | cons p rest ih =>
    intro st
    obtain ⟨name, content⟩ := p
    simp only [processFilesLoop]
    by_cases h : name.endsWith ".json"
    · simp only [h, if_true]
      rcases hpf : processOneFile out pid st name content with ⟨st', rest'⟩
      obtain ⟨evs, ok⟩ := rest'
      have hcf : st'.controlFile = st.controlFile := by
        have := processOneFile_controlFile out pid st name content
        rw [hpf] at this
        exact this
      cases ok
      · simpa using hcf
      · rcases hloop : processFilesLoop out pid st' rest with ⟨st'', rest''⟩
        obtain ⟨evs', ok'⟩ := rest''
        have := ih st'
        rw [hloop] at this
        simpa [hloop] using this.trans hcf
    · simpa [h] using ih st

theorem process_files_in_folder_controlFile (out pid : String) (st : SysState) :
    ((process_files_in_folder out pid st).1).controlFile = st.controlFile :=
  processFilesLoop_controlFile out pid st.intake st

/-- C7: every invocation of `main` appends exactly one run record to
the control file, whether folder processing completed (`ok = true`) or
raised (`ok = false`, caught at the batch boundary): the record carries
the run identifier, the start reading formatted before processing and
the end reading formatted after it, and status `"Success"` exactly when
no exception escaped, `"Failed"` otherwise; both timestamps render as
`YYYY-MM-DD HH:MM:SS`, and a chronologically ordered pair of valid
readings yields start ≤ end on the formatted strings as well. -/
theorem C7_run_ledger (out pid : String) (startDT endDT : DateTime) (st : SysState)
    (hs : startDT.valid) (he : endDT.valid) (hc : DateTime.chronLe startDT endDT) :
    ((main out pid startDT endDT st).1).controlFile =
      some ((if st.controlFile.isSome then st.controlFile.getD []
             else [CsvLine.header controlFieldnames]) ++
        [CsvLine.row [("processID", jstr pid),
          ("start_date", jstr (formatTimestamp startDT)),
          ("end_date", jstr (formatTimestamp endDT)),
          ("status", jstr (if (process_files_in_folder out pid st).2.2
                           then "Success" else "Failed"))]]) ∧
    rowCount ((if st.controlFile.isSome then st.controlFile.getD []
               else [CsvLine.header controlFieldnames]) ++
        [CsvLine.row [("processID", jstr pid),
          ("start_date", jstr (formatTimestamp startDT)),
          ("end_date", jstr (formatTimestamp endDT)),
          ("status", jstr (if (process_files_in_folder out pid st).2.2
                           then "Success" else "Failed"))]]) =
      rowCount (st.controlFile.getD []) + 1 ∧
    matchesTsPattern (formatTimestamp startDT) ∧
    matchesTsPattern (formatTimestamp endDT) ∧
    strLe (formatTimestamp startDT) (formatTimestamp endDT) := by
  refine ⟨?_, ?_, matchesTsPattern_format startDT, matchesTsPattern_format endDT,
    formatTimestamp_mono startDT endDT hs he hc⟩
  · unfold main
    rcases hp : process_files_in_folder out pid st with ⟨st1, rest⟩
    obtain ⟨evs, ok⟩ := rest
    have hcf : st1.controlFile = st.controlFile := by
      have := process_files_in_folder_controlFile out pid st
      rw [hp] at this
      exact this
    cases hsc : st.controlFile with
    | none =>
      rw [hsc] at hcf
      simp [hp, update_control_file, hcf, rowCells, controlFieldnames, List.lookup]
    | some c =>
      rw [hsc] at hcf
      simp [hp, update_control_file, hcf, rowCells, controlFieldnames, List.lookup]
  · cases hc2 : st.controlFile with
    | none => simp [rowCount, hc2, controlFieldnames]
    | some c => simp [rowCount, hc2]

/-- C7 (witness): a concrete run over an empty intake appends one
success record with ordered, pattern-shaped timestamps. -/
theorem C7_witness :
    (DateTime.valid ⟨2026, 10, 12, 3, 4, 5⟩) ∧
    (DateTime.valid ⟨2026, 10, 12, 3, 4, 6⟩) ∧
    (DateTime.chronLe ⟨2026, 10, 12, 3, 4, 5⟩ ⟨2026, 10, 12, 3, 4, 6⟩) ∧
    (((main "o" "p" ⟨2026, 10, 12, 3, 4, 5⟩ ⟨2026, 10, 12, 3, 4, 6⟩
        ⟨[], [], [], none⟩).1).controlFile =
      some ((if (none : Option CsvFile).isSome then (none : Option CsvFile).getD []
             else [CsvLine.header controlFieldnames]) ++
        [CsvLine.row [("processID", jstr "p"),
          ("start_date", jstr (formatTimestamp ⟨2026, 10, 12, 3, 4, 5⟩)),
          ("end_date", jstr (formatTimestamp ⟨2026, 10, 12, 3, 4, 6⟩)),
          ("status", jstr (if (process_files_in_folder "o" "p"
              ⟨[], [], [], none⟩).2.2 then "Success" else "Failed"))]]) ∧
      rowCount ((if (none : Option CsvFile).isSome then (none : Option CsvFile).getD []
             else [CsvLine.header controlFieldnames]) ++
        [CsvLine.row [("processID", jstr "p"),
          ("start_date", jstr (formatTimestamp ⟨2026, 10, 12, 3, 4, 5⟩)),
          ("end_date", jstr (formatTimestamp ⟨2026, 10, 12, 3, 4, 6⟩)),
          ("status", jstr (if (process_files_in_folder "o" "p"
              ⟨[], [], [], none⟩).2.2 then "Success" else "Failed"))]]) =
        rowCount ((none : Option CsvFile).getD []) + 1 ∧
      matchesTsPattern (formatTimestamp ⟨2026, 10, 12, 3, 4, 5⟩) ∧
      matchesTsPattern (formatTimestamp ⟨2026, 10, 12, 3, 4, 6⟩) ∧
      strLe (formatTimestamp ⟨2026, 10, 12, 3, 4, 5⟩)
        (formatTimestamp ⟨2026, 10, 12, 3, 4, 6⟩)) :=
  ⟨by decide, by decide, by decide,
    C7_run_ledger "o" "p" ⟨2026, 10, 12, 3, 4, 5⟩ ⟨2026, 10, 12, 3, 4, 6⟩
      ⟨[], [], [], none⟩ (by decide) (by decide) (by decide)⟩

end JsonToCsv
